import Mathlib

/-!
Verification of the word-presentation engine of the Quest RSVP speed reader
(`src/components/Reader.tsx` and the surrounding app shell).

Strings are modelled as `List Char`, JS numbers used as indices and lengths
as `Int` (so that `length - 1` can be `-1`, as it is in JS on an empty
sequence), and timer delays `60000 / wpm` as `ℚ`.
-/

namespace SpeedReader

/-! ### Tokenizer

`Reader.tsx` line 32:
`book.content.split(/\s+/).filter(w => w.length > 0)`.
The regex `\s+` splits at maximal runs of whitespace; the interior pieces of
such a split are the maximal non-whitespace runs and only the boundary pieces
can be empty, so the composition with the length filter returns exactly the
maximal non-whitespace runs, in order of appearance. -/

/-- The character class of the JS regex `\s`: ASCII whitespace plus the
Unicode space separators, line/paragraph separators and the BOM. -/
def isWs (c : Char) : Bool :=
  let n := c.toNat
  n == 0x09 || n == 0x0A || n == 0x0B || n == 0x0C || n == 0x0D || n == 0x20 ||
  n == 0xA0 || n == 0x1680 || (0x2000 ≤ n && n ≤ 0x200A) || n == 0x2028 ||
  n == 0x2029 || n == 0x202F || n == 0x205F || n == 0x3000 || n == 0xFEFF

/-- Accumulator-passing scan over the input: `cur` holds the (reversed)
current non-whitespace run; a whitespace character flushes it. -/
def tokenizeAux : List Char → List Char → List (List Char)
  | [], cur => if cur = [] then [] else [cur.reverse]
  | c :: rest, cur =>
      if isWs c then
        if cur = [] then tokenizeAux rest [] else cur.reverse :: tokenizeAux rest []
      else
        tokenizeAux rest (c :: cur)

/-- `content.split(/\s+/).filter(w => w.length > 0)` from `Reader.tsx` line 32. -/
def tokenize (s : List Char) : List (List Char) :=
  tokenizeAux s []

/-! ### ORP calculator (`getSpritzWord`, `Reader.tsx` lines 35-50) -/

/-- The `SpritzWord` record of `types.ts` (`{prefix, orp, suffix}`); the first
field is renamed `pre` because its source name is a reserved word in Lean. -/
structure SpritzWord where
  pre : List Char
  orp : List Char
  suffix : List Char
  deriving Repr, DecidableEq

/-- The pivot-index cascade of `getSpritzWord` (`Reader.tsx` lines 37-43):
`if (len === 1) 0; else if (len >= 2 && len <= 5) 1; else if (len >= 6 &&
len <= 9) 2; else if (len >= 10 && len <= 13) 3; else 4`. -/
def orpIndex (len : Nat) : Nat :=
  if len = 1 then 0
  else if 2 ≤ len ∧ len ≤ 5 then 1
  else if 6 ≤ len ∧ len ≤ 9 then 2
  else if 10 ≤ len ∧ len ≤ 13 then 3
  else 4

/-- `getSpritzWord` (`Reader.tsx` lines 35-50).  `word.substring(0, i)` is
`take i`, `word.charAt(i)` is the one-character string `(drop i).take 1`
(empty when `i` is out of range, as in JS), and `word.substring(i + 1)` is
`drop (i + 1)`.  The `if (!word)` guard is the empty-list test. -/
def getSpritzWord (word : List Char) : SpritzWord :=
  if word = [] then ⟨[], [], []⟩
  else
    let i := orpIndex word.length
    ⟨word.take i, (word.drop i).take 1, word.drop (i + 1)⟩

/-- Modelled from the spec's pivot table wording (§4.2 / C6), to be compared
with the source's `orpIndex`: L = 1 gives 0, 2 ≤ L ≤ 5 gives 1,
6 ≤ L ≤ 9 gives 2, 10 ≤ L ≤ 13 gives 3, L ≥ 14 gives 4. -/
def pivotIndexSpec (L : Nat) : Nat :=
  if L = 1 then 0
  else if 2 ≤ L ∧ L ≤ 5 then 1
  else if 6 ≤ L ∧ L ≤ 9 then 2
  else if 10 ≤ L ∧ L ≤ 13 then 3
  else 4

/-! ### Reader playback state (`Reader.tsx`) -/

/-- The slice of the `Reader` component state the scheduler claims concern:
`index` (`useState(book.lastPosition || 0)`) and `isPlaying`
(`useState(false)`).  `index` is an `Int` so that JS comparisons against
`words.current.length - 1` (which is `-1` on an empty document) are faithful. -/
structure ReaderState where
  index : Int
  isPlaying : Bool
  deriving Repr, DecidableEq

/-- `handleTogglePlay` (`Reader.tsx` lines 52-54): `setIsPlaying(!isPlaying)`.
There is no guard on the token-sequence length. -/
def handleTogglePlay (s : ReaderState) : ReaderState :=
  { s with isPlaying := !s.isPlaying }

/-- The state update a firing tick performs (`Reader.tsx` lines 117-124):
`setIndex(prev => { if (prev >= words.current.length - 1)
{ setIsPlaying(false); return prev; } return prev + 1; })`.
`len` is `words.current.length`. -/
def tick (len : Int) (s : ReaderState) : ReaderState :=
  if s.index ≥ len - 1 then { s with isPlaying := false }
  else { s with index := s.index + 1 }

/-- `handleSkip` (`Reader.tsx` lines 56-59):
`Math.max(0, Math.min(words.current.length - 1, index + amount))`. -/
def handleSkip (len : Int) (amount : Int) (s : ReaderState) : ReaderState :=
  { s with index := max 0 (min (len - 1) (s.index + amount)) }

/-- Initial cursor on opening a document (`Reader.tsx` line 20):
`useState(book.lastPosition || 0)` — the JS falsy-or, which replaces a
persisted `0` by the default `0` and keeps any other number unchanged.
No clamping to the token-sequence range is performed. -/
def initialIndex (lastPosition : Int) : Int :=
  if lastPosition = 0 then 0 else lastPosition

/-- Initial playback flag (`Reader.tsx` line 21): `useState(false)`. -/
def initialIsPlaying : Bool := false

/-- The clamp the spec's wording uses for `skip` (§4.3 / C8):
`clamp(x, lo, hi)`. -/
def clampSpec (x lo hi : Int) : Int := max lo (min hi x)

/-! ### Timer scheduling (`Reader.tsx` lines 111-137)

The playback loop is the effect
`useEffect(() => { if (isPlaying) { scheduleNext(); } else { clear } ;
return () => clear; }, [isPlaying, settings.wpm])`
where `scheduleNext` arms one `setTimeout` with `delay = 60000 / settings.wpm`.
React re-runs this effect whenever `isPlaying` or `settings.wpm` changes:
first the cleanup clears the pending timeout, then the body re-arms a fresh
timeout (with the new delay, measured from the moment of the change) when
`isPlaying` is true.  We model a pending timeout as the pair of its arming
time and its delay, both in `ℚ` (the delay `60000 / wpm` is not an integer). -/

/-- A pending `setTimeout`: the absolute time it was armed and its delay. -/
structure PendingTick where
  armedAt : ℚ
  delay : ℚ
  deriving Repr, DecidableEq

/-- The scheduler-relevant state: the playback flag, the current rate, and
the at-most-one pending timeout held in `timeoutRef`. -/
structure SchedulerState where
  isPlaying : Bool
  wpm : ℚ
  pending : Option PendingTick
  deriving Repr, DecidableEq

/-- `const delay = 60000 / settings.wpm` (`Reader.tsx` line 115). -/
def tickDelay (wpm : ℚ) : ℚ := 60000 / wpm

/-- What a rate change does to the scheduler (`Reader.tsx` lines 112-137):
`settings.wpm` is a dependency of the playback effect, so the effect's
cleanup clears the pending timeout and then, if `isPlaying`, `scheduleNext`
arms a new timeout at time `now` with the new delay; if not playing there is
no pending timeout afterwards. -/
def setRateEffect (now newWpm : ℚ) (s : SchedulerState) : SchedulerState :=
  if s.isPlaying then
    { s with wpm := newWpm, pending := some ⟨now, tickDelay newWpm⟩ }
  else
    { s with wpm := newWpm, pending := none }

/-- The absolute time at which the pending timeout will fire, if any. -/
def pendingFireTime (s : SchedulerState) : Option ℚ :=
  s.pending.map fun p => p.armedAt + p.delay

/-! ### Progress indicator (`Reader.tsx` lines 204-215)

Line 208: `width: (index / (words.current.length - 1)) * 100 + '%'`;
line 213: `Math.round((index / words.current.length) * 100) + '%'`.
A zero denominator is a division by zero in the source (JS produces the
non-finite `NaN`/`Infinity`, which has no rational counterpart); the model
returns `none` exactly in that case. -/

/-- The progress-bar width ratio `(index / (len - 1)) * 100`;
`none` marks a division by zero. -/
def progressBarWidth (index len : ℚ) : Option ℚ :=
  if len - 1 = 0 then none else some (index / (len - 1) * 100)

/-- The progress percentage ratio `(index / len) * 100`;
`none` marks a division by zero. -/
def progressPercent (index len : ℚ) : Option ℚ :=
  if len = 0 then none else some (index / len * 100)

/-! ### Helper lemmas -/

/-- Splitting a list at position `i` into the part before `i`, the
one-element (or empty) slice at `i`, and the part after `i` reconstitutes
the list. -/
theorem take_one_drop_concat (w : List Char) (i : Nat) :
    w.take i ++ ((w.drop i).take 1 ++ w.drop (i + 1)) = w := by
  have h1 : w.drop (i + 1) = (w.drop i).drop 1 := by
    rw [List.drop_drop, Nat.add_comm]
  rw [h1, List.take_append_drop, List.take_append_drop]

/-- The pivot index from the spec table is strictly below the token length
for every positive length. -/
theorem pivotIndexSpec_lt (L : Nat) (h : 1 ≤ L) : pivotIndexSpec L < L := by
  unfold pivotIndexSpec
  split_ifs <;> omega

/-- Every token `tokenizeAux` emits is non-empty and free of whitespace,
provided the running accumulator is. -/
theorem tokenizeAux_mem (s : List Char) (cur : List Char)
    (hcur : ∀ c ∈ cur, isWs c = false) :
    ∀ t ∈ tokenizeAux s cur, t ≠ [] ∧ ∀ c ∈ t, isWs c = false := by
  induction s generalizing cur with
  | nil =>
      intro t ht
      rw [tokenizeAux] at ht
      split at ht
      · simp at ht
      · next hne =>
          simp only [List.mem_singleton] at ht
          subst ht
          refine ⟨by simpa using hne, ?_⟩
          intro c hc
          exact hcur c (List.mem_reverse.mp hc)
  | cons c rest ih =>
      intro t ht
      rw [tokenizeAux] at ht
      by_cases hws : isWs c
      · rw [if_pos hws] at ht
        split at ht
        · exact ih [] (by simp) t ht
        · next hne =>
            rcases List.mem_cons.mp ht with h1 | h1
            · subst h1
              refine ⟨by simpa using hne, ?_⟩
              intro x hx
              exact hcur x (List.mem_reverse.mp hx)
            · exact ih [] (by simp) t h1
      · rw [if_neg hws] at ht
        refine ih (c :: cur) ?_ t ht
        intro x hx
        rcases List.mem_cons.mp hx with h1 | h1
        · subst h1; simpa using hws
        · exact hcur x h1

/-- The concatenation of the tokens `tokenizeAux` emits is a subsequence of
the accumulator (reversed) followed by the remaining input: the tokens keep
the order of appearance of their characters. -/
theorem tokenizeAux_join_sublist (s : List Char) (cur : List Char) :
    (tokenizeAux s cur).flatten.Sublist (cur.reverse ++ s) := by
  induction s generalizing cur with
  | nil =>
      rw [tokenizeAux]
      split
      · simp
      · simp
  | cons c rest ih =>
      rw [tokenizeAux]
      by_cases hws : isWs c
      · rw [if_pos hws]
        split
        · next he =>
            subst he
            simpa using (ih []).cons c
        · have hinner : (tokenizeAux rest []).flatten.Sublist (c :: rest) := by
            simpa using (ih []).cons c
          simpa [List.flatten] using hinner.append_left cur.reverse
      · rw [if_neg hws]
        have := ih (c :: cur)
        simpa [List.append_assoc] using this

/-! ### Claim theorems -/

/-- C1: for every token-sequence length and cursor, a tick that fires while
`Running` transitions to `Paused` with the cursor unchanged when
`cursor ≥ length - 1` (no wrap past the final index), and otherwise
increments the cursor and stays `Running`. -/
theorem C1_tick_running (len : Int) (s : ReaderState) (h : s.isPlaying = true) :
    (len - 1 ≤ s.index → tick len s = { index := s.index, isPlaying := false }) ∧
    (s.index < len - 1 → tick len s = { index := s.index + 1, isPlaying := true }) := by
  cases s with
  | mk idx play =>
      have h' : play = true := h
      subst h'
      constructor
      · intro hge
        have hc : ({ index := idx, isPlaying := true } : ReaderState).index ≥ len - 1 := hge
        rw [tick, if_pos hc]
      · intro hlt
        have hc : ¬ ({ index := idx, isPlaying := true } : ReaderState).index ≥ len - 1 := by
          intro hcon
          have hcon' : len - 1 ≤ idx := hcon
          omega
        rw [tick, if_neg hc]

/-- Witness for C1 at a one-token document with the cursor on the final
index: the tick pauses and leaves the cursor at 0. -/
theorem C1_tick_running_witness :
    (ReaderState.mk 0 true).isPlaying = true ∧
    tick 1 ⟨0, true⟩ = ⟨0, false⟩ :=
  ⟨rfl, (C1_tick_running 1 ⟨0, true⟩ rfl).1 (by decide)⟩

/-- C2 counterexample: `Running` at rate 100 wpm with a tick armed at time 0
(so due at 0 + 600 = 600 ms); a rate change to 300 wpm at time 100 does not
let the pending tick fire at the old boundary 600 — the effect re-run
cancels it and the next tick is due at 100 + 200 = 300 ms. -/
theorem C2_setRate_counterexample :
    pendingFireTime ⟨true, 100, some ⟨0, tickDelay 100⟩⟩ = some 600 ∧
    pendingFireTime (setRateEffect 100 300 ⟨true, 100, some ⟨0, tickDelay 100⟩⟩) = some 300 ∧
    (300 : ℚ) ≠ 600 := by
  refine ⟨?_, ?_, by norm_num⟩
  · simp [pendingFireTime, tickDelay]
    norm_num
  · simp [pendingFireTime, setRateEffect, tickDelay]
    norm_num

/-- C2 amended: a rate change while `Running` cancels the in-flight wait and
arms a fresh tick due one full new interval `60000 / newWpm` after the
moment of the change. -/
theorem C2_setRate_reschedules (now newWpm : ℚ) (s : SchedulerState)
    (h : s.isPlaying = true) :
    pendingFireTime (setRateEffect now newWpm s) = some (now + 60000 / newWpm) := by
  simp [setRateEffect, h, pendingFireTime, tickDelay]

/-- Witness for the amended C2: changing to 300 wpm at time 100 arms a tick
due at 100 + 60000 / 300. -/
theorem C2_setRate_reschedules_witness :
    pendingFireTime (setRateEffect 100 300 ⟨true, 100, none⟩) =
      some (100 + 60000 / 300) :=
  C2_setRate_reschedules 100 300 ⟨true, 100, none⟩ rfl

/-- C3 counterexample: the token sequence of the empty document has length 0,
yet `handleTogglePlay` from `Paused` still sets the playing flag — the
claimed refusal to enter `Running` on an empty document does not exist. -/
theorem C3_togglePlay_empty_counterexample :
    (tokenize "".toList).length = 0 ∧
    (handleTogglePlay ⟨0, false⟩).isPlaying = true :=
  ⟨by decide, by decide⟩

/-- C3 amended: `handleTogglePlay` on an empty document (token-sequence
length 0, as for the empty text) does enter `Running`, but the first tick
restores the original `Paused` state with the cursor unchanged, so `Running`
persists for at most one tick interval. -/
theorem C3_togglePlay_empty_transient (s : ReaderState)
    (hp : s.isPlaying = false) (hi : 0 ≤ s.index) :
    (handleTogglePlay s).isPlaying = true ∧
    tick ((tokenize "".toList).length : Int) (handleTogglePlay s) = s := by
  cases s with
  | mk idx play =>
      have hp' : play = false := hp
      subst hp'
      refine ⟨rfl, ?_⟩
      have hi' : (0 : Int) ≤ idx := hi
      have hlen : (((tokenize "".toList).length : Nat) : Int) = 0 := by decide
      rw [hlen]
      show tick 0 ⟨idx, !false⟩ = ⟨idx, false⟩
      have hc : (⟨idx, !false⟩ : ReaderState).index ≥ (0 : Int) - 1 := by
        show (0 : Int) - 1 ≤ idx
        omega
      rw [tick, if_pos hc]

/-- Witness for the amended C3 at cursor 0: toggling play on the empty
document enters `Running` and the next tick returns to the initial state. -/
theorem C3_togglePlay_empty_transient_witness :
    (ReaderState.mk 0 false).isPlaying = false ∧ (0 : Int) ≤ 0 ∧
    ((handleTogglePlay ⟨0, false⟩).isPlaying = true ∧
      tick ((tokenize "".toList).length : Int) (handleTogglePlay ⟨0, false⟩) = ⟨0, false⟩) :=
  ⟨rfl, by decide, C3_togglePlay_empty_transient ⟨0, false⟩ rfl (by decide)⟩

/-- C4 counterexample: the document "a b c" has 3 tokens, but a persisted
position 7 ≥ 3 is taken as the initial cursor unchanged, outside the valid
range `[0, 2]` — no clamping happens on load. -/
theorem C4_initialIndex_counterexample :
    (tokenize "a b c".toList).length = 3 ∧
    initialIndex 7 = 7 ∧ ¬ initialIndex 7 ≤ 3 - 1 :=
  ⟨by decide, by decide, by decide⟩

/-- C4 amended: on opening a document the state is `Paused` and the initial
cursor equals the persisted last position exactly (with 0 as the default via
the falsy-or on 0), with no clamping to the token-sequence range; a persisted
position at or beyond the length is used as-is, out of range. -/
theorem C4_initial_state (p : Int) :
    initialIndex p = p ∧ initialIsPlaying = false := by
  constructor
  · unfold initialIndex
    split_ifs with h
    · omega
    · rfl
  · rfl

/-- C5: for every non-empty token, the ORP triple computed by
`getSpritzWord` concatenates back to the token. -/
theorem C5_orp_concat (w : List Char) (h : w ≠ []) :
    (getSpritzWord w).pre ++ (getSpritzWord w).orp ++ (getSpritzWord w).suffix = w := by
  rw [getSpritzWord, if_neg h]
  simp only
  rw [List.append_assoc]
  exact take_one_drop_concat w (orpIndex w.length)

/-- Witness for C5 on the token "cat". -/
theorem C5_orp_concat_witness :
    "cat".toList ≠ [] ∧
    (getSpritzWord "cat".toList).pre ++ (getSpritzWord "cat".toList).orp ++
      (getSpritzWord "cat".toList).suffix = "cat".toList :=
  ⟨by decide, C5_orp_concat "cat".toList (by decide)⟩

/-- C6: for every non-empty token, the pivot index used by `getSpritzWord`
equals the spec's fixed length-keyed table (`pivotIndexSpec`), the first
component is the characters before that index, the second is exactly the
single character at it, and the third is the characters after it. -/
theorem C6_orp_table (w : List Char) (h : w ≠ []) :
    orpIndex w.length = pivotIndexSpec w.length ∧
    (getSpritzWord w).pre = w.take (pivotIndexSpec w.length) ∧
    (getSpritzWord w).suffix = w.drop (pivotIndexSpec w.length + 1) ∧
    ∃ hlt : pivotIndexSpec w.length < w.length,
      (getSpritzWord w).orp = [w.get ⟨pivotIndexSpec w.length, hlt⟩] := by
  have heq : orpIndex w.length = pivotIndexSpec w.length := rfl
  have hlen : 1 ≤ w.length := by
    cases w with
    | nil => exact absurd rfl h
    | cons a t => simp
  have hlt : pivotIndexSpec w.length < w.length := pivotIndexSpec_lt w.length hlen
  refine ⟨heq, ?_, ?_, hlt, ?_⟩
  · rw [getSpritzWord, if_neg h]
    rfl
  · rw [getSpritzWord, if_neg h]
    rfl
  · rw [getSpritzWord, if_neg h]
    show List.take 1 (List.drop (orpIndex w.length) w) =
      [w.get ⟨pivotIndexSpec w.length, hlt⟩]
    rw [heq, List.drop_eq_getElem_cons hlt]
    rfl

/-- Witness for C6 on the token "alphabet" (length 8). -/
theorem C6_orp_table_witness :
    orpIndex ("alphabet".toList).length = pivotIndexSpec ("alphabet".toList).length :=
  (C6_orp_table "alphabet".toList (by decide)).1

/-- C7: the tokenizer returns the empty sequence on the empty string and
`["a", "b"]` on `"  a   b  "`; every emitted token is non-empty and contains
no whitespace character at all (hence none is whitespace-only); and the
concatenation of the tokens is a subsequence of the input, so tokens appear
in order of appearance. -/
theorem C7_tokenize_spec :
    tokenize "".toList = [] ∧
    tokenize "  a   b  ".toList = ["a".toList, "b".toList] ∧
    (∀ s t, t ∈ tokenize s → t ≠ [] ∧ ∀ c ∈ t, isWs c = false) ∧
    (∀ s, (tokenize s).flatten.Sublist s) := by
  refine ⟨by decide, by decide, ?_, ?_⟩
  · intro s t ht
    exact tokenizeAux_mem s [] (by simp) t ht
  · intro s
    simpa using tokenizeAux_join_sublist s []

/-- Witness for C7: the token "ab" emitted from " ab " is non-empty and
whitespace-free. -/
theorem C7_tokenize_spec_witness :
    "ab".toList ∈ tokenize " ab ".toList ∧
    ("ab".toList ≠ [] ∧ ∀ c ∈ "ab".toList, isWs c = false) :=
  ⟨by decide, C7_tokenize_spec.2.2.1 " ab ".toList "ab".toList (by decide)⟩

/-- C8: on a non-empty token sequence with an in-range cursor, `handleSkip`
sets the cursor to `clamp(cursor + delta, 0, length - 1)`, leaves the
playing flag unchanged, and the result is always in range — an out-of-range
target is clamped silently (the operation is total, no error path exists). -/
theorem C8_skip_clamp (len amount : Int) (s : ReaderState)
    (hlen : 1 ≤ len) (h0 : 0 ≤ s.index) (h1 : s.index ≤ len - 1) :
    handleSkip len amount s =
      { s with index := clampSpec (s.index + amount) 0 (len - 1) } ∧
    (handleSkip len amount s).isPlaying = s.isPlaying ∧
    0 ≤ (handleSkip len amount s).index ∧
    (handleSkip len amount s).index ≤ len - 1 := by
  refine ⟨rfl, rfl, ?_, ?_⟩
  · simp [handleSkip]
  · simp only [handleSkip]
    omega

/-- Witness for C8: `skip(100)` from cursor 2 on a 5-token sequence clamps
to cursor 4 and keeps the `Paused` flag. -/
theorem C8_skip_clamp_witness :
    (1 : Int) ≤ 5 ∧ (0 : Int) ≤ (ReaderState.mk 2 false).index ∧
    (ReaderState.mk 2 false).index ≤ 5 - 1 ∧
    (handleSkip 5 100 ⟨2, false⟩ =
        { ReaderState.mk 2 false with index := clampSpec (2 + 100) 0 (5 - 1) } ∧
      (handleSkip 5 100 ⟨2, false⟩).isPlaying = (ReaderState.mk 2 false).isPlaying ∧
      0 ≤ (handleSkip 5 100 ⟨2, false⟩).index ∧
      (handleSkip 5 100 ⟨2, false⟩).index ≤ 5 - 1) :=
  ⟨by decide, by decide, by decide,
    C8_skip_clamp 5 100 ⟨2, false⟩ (by decide) (by decide) (by decide)⟩

/-- C9 counterexample: "hello" tokenizes to a single token, and there the
progress-bar width ratio `index / (length - 1)` has denominator 0 — the
computation divides by zero (modelled as `none`), so the denominators are
not guarded. -/
theorem C9_progress_counterexample :
    (tokenize "hello".toList).length = 1 ∧
    progressBarWidth 0 ((1 : ℚ)) = none :=
  ⟨by decide, by norm_num [progressBarWidth]⟩

/-- C9 amended: the progress computations are unguarded; for token-sequence
lengths ≥ 2 both denominators are nonzero and the ratios are defined; at
length 1 the width ratio divides by zero; at length 0 the percent ratio
divides by zero while the width denominator is `0 - 1 = -1`, so the width
ratio is (pointlessly but harmlessly) defined there. -/
theorem C9_progress_denominators (index : ℚ) (n : ℕ) (h : 2 ≤ n) :
    (progressBarWidth index n).isSome = true ∧
    (progressPercent index n).isSome = true ∧
    progressBarWidth index 1 = none ∧
    progressPercent index 0 = none ∧
    progressBarWidth index 0 = some (index / (0 - 1) * 100) := by
  have h2 : (2 : ℚ) ≤ (n : ℚ) := by exact_mod_cast h
  have hd1 : (n : ℚ) - 1 ≠ 0 := by intro hc; linarith
  have hd2 : (n : ℚ) ≠ 0 := by intro hc; linarith
  refine ⟨?_, ?_, by norm_num [progressBarWidth], by norm_num [progressPercent],
    by norm_num [progressBarWidth]⟩
  · simp [progressBarWidth, hd1]
  · simp [progressPercent, hd2]

/-- Witness for the amended C9 at length 2: both ratios are defined there,
the width ratio is undefined at length 1, the percent ratio is undefined at
length 0, and the width ratio at length 0 has denominator -1. -/
theorem C9_progress_denominators_witness :
    (2 : ℕ) ≤ 2 ∧
    ((progressBarWidth 0 (2 : ℕ)).isSome = true ∧
      (progressPercent 0 (2 : ℕ)).isSome = true ∧
      progressBarWidth 0 1 = none ∧
      progressPercent 0 0 = none ∧
      progressBarWidth 0 0 = some (0 / (0 - 1) * 100)) :=
  ⟨le_refl 2, C9_progress_denominators 0 2 (le_refl 2)⟩

/-- C10: on an empty token sequence (length 0), `handleSkip` sets the cursor
to exactly 0 for every delta and every prior cursor (the upper clamp bound
is `-1`, and the outer lower clamp to 0 dominates), so the skip is a no-op
exactly when the cursor was already 0. -/
theorem C10_skip_empty (s : ReaderState) (delta : Int) :
    (handleSkip 0 delta s).index = 0 ∧
    (handleSkip 0 delta s = s ↔ s.index = 0) := by
  cases s with
  | mk idx play =>
      have hz : max 0 (min ((0 : Int) - 1) (idx + delta)) = 0 := by omega
      constructor
      · simp only [handleSkip]
        exact hz
      · simp only [handleSkip, ReaderState.mk.injEq, and_true]
        rw [hz]
        exact ⟨fun h => h.symm, fun h => h.symm⟩

end SpeedReader
